import Mathlib

/-!
# Verification of the mbrgo incremental-backup core

A shallow embedding, in Lean 4, of the capture loop, segment writer,
position cursor store, upload key derivation, and backup scheduler of the
`mbrgo` MySQL backup service, together with proofs and refutations of the
specification's claims about them.

Bytes are modelled as `Nat`, byte slices as `List Nat`, file contents as
`List Nat`, and textual file contents as `String`/`List Char`.  Each
definition is translated from the corresponding Go function; comments name
the source function.
-/

namespace Mbrgo

/-! ## Segment writer / capture loop (incremental_backup.go)

Constants from incremental_backup.go:
`bufferSize = 2*1024*1024`, `maxFileSize = 10*1024*1024`. -/

def bufferSize : Nat := 2 * 1024 * 1024

def maxFileSize : Nat := 10 * 1024 * 1024

/-- The mutable process-wide state of the capture loop
(incremental_backup.go globals `buffer`, `currentSize`, `currentFile`,
`currentBinlog`), together with the observable history of flushed bytes.

A segment file's content is recorded as the list of chunks written to it,
in write order; `closedSegs` are the rotated (closed) segment files in
rotation order, `currentSeg` the open one.  `logs` records error log
lines, abstracted to fixed tags. -/
structure CaptureState where
  buffer : List Nat
  currentSize : Nat
  closedSegs : List (List (List Nat))
  currentSeg : List (List Nat)
  currentBinlog : String
  logs : List String
  deriving Repr, DecidableEq

/-- Initial state: empty buffer, `currentSize = 0`, the first segment file
freshly opened by `streamData`, and `currentBinlog = "binlog.000001"`. -/
def initState : CaptureState :=
  { buffer := [], currentSize := 0, closedSegs := [], currentSeg := []
    currentBinlog := "binlog.000001", logs := [] }

/-- A binlog event as seen by `processEvent`: a `RotateEvent` carrying the
next log name, or any other event contributing its `RawData`. -/
inductive BinlogEvent where
  | rotateEv (nextLogName : String)
  | dataEv (raw : List Nat)
  deriving Repr, DecidableEq

/-- `writeBufferToFile` (incremental_backup.go:87-95): write the whole
buffer to the current segment file.  On success (`ok = true`) the written
bytes become a chunk of the current segment, `currentSize` grows by the
number of bytes written, and the buffer is cleared.  On failure the error
is logged and the function returns at once: buffer and `currentSize` are
left untouched (`buffer = buffer[:0]` is only reached on success). -/
def writeBufferToFile (ok : Bool) (st : CaptureState) : CaptureState :=
  if ok then
    { st with currentSeg := st.currentSeg ++ [st.buffer]
              currentSize := st.currentSize + st.buffer.length
              buffer := [] }
  else
    { st with logs := st.logs ++ ["failed writing to backup file"] }

/-- `rotateFile` (incremental_backup.go:97-124): flush any remaining
buffered bytes directly to the segment file (on failure only logging —
`buffer = buffer[:0]` runs in either case, and `currentSize` is not
updated by this direct write), close the current segment, hand it to the
upload goroutine (modelled separately, see `rotateUpload`), open a new
segment file and reset `currentSize`. -/
def rotateFile (ok : Bool) (st : CaptureState) : CaptureState :=
  let st' :=
    if st.buffer.length > 0 then
      if ok then
        { st with currentSeg := st.currentSeg ++ [st.buffer], buffer := [] }
      else
        { st with logs := st.logs ++ ["failed flushing remaining data"]
                  buffer := [] }
    else st
  { st' with closedSegs := st'.closedSegs ++ [st'.currentSeg]
             currentSeg := [], currentSize := 0 }

/-- `processEvent` (incremental_backup.go:61-85).  `wok` is the outcome of
the `writeBufferToFile` call, `rok` of the direct write inside
`rotateFile`, for the event's writes (writes succeed in the failure-free
runs below).  A `RotateEvent` flushes a non-empty buffer, rotates, and
updates `currentBinlog` to the event's `NextLogName`.  Any other event
appends its `RawData` to the buffer, streams the cumulative buffer to S3
(external side effect, no state change), flushes once the buffer reaches
`bufferSize`, and rotates once `currentSize` reaches `maxFileSize`. -/
def processEvent (ev : BinlogEvent) (wok rok : Bool) (st : CaptureState) :
    CaptureState :=
  match ev with
  | .rotateEv next =>
      let st1 := if st.buffer.length > 0 then writeBufferToFile wok st else st
      let st2 := rotateFile rok st1
      { st2 with currentBinlog := next }
  | .dataEv raw =>
      let st1 := { st with buffer := st.buffer ++ raw }
      let st2 :=
        if bufferSize ≤ st1.buffer.length then writeBufferToFile wok st1 else st1
      if maxFileSize ≤ st2.currentSize then rotateFile rok st2 else st2

/-- Run the capture loop (`streamData`'s event loop) over a trace of
events, each paired with the outcomes of its two potential writes. -/
def runEvents (tr : List (BinlogEvent × Bool × Bool)) : CaptureState :=
  tr.foldl (fun st e => processEvent e.1 e.2.1 e.2.2 st) initState

/-- Failure-free run: every write succeeds. -/
def runOk (evs : List BinlogEvent) : CaptureState :=
  runEvents (evs.map fun e => (e, true, true))

/-- The bytes a segment file holds: its chunks concatenated. -/
def segBytes (seg : List (List Nat)) : List Nat := seg.flatten

/-- All bytes written across segment files, concatenated in
segment-sequence order (closed segments in rotation order, then the open
one). -/
def writtenBytes (st : CaptureState) : List Nat :=
  ((st.closedSegs ++ [st.currentSeg]).map segBytes).flatten

/-- The payload of one event: `RawData` for a data event, nothing for a
rotate event. -/
def payloadOf : BinlogEvent → List Nat
  | .rotateEv _ => []
  | .dataEv raw => raw

/-- Concatenation of all data-event payloads in delivery order. -/
def payloadBytes (evs : List BinlogEvent) : List Nat :=
  (evs.map payloadOf).flatten

def isRotateEv : BinlogEvent → Bool
  | .rotateEv _ => true
  | .dataEv _ => false

/-- Total size of the chunks flushed to a segment. -/
def sumSizes (seg : List (List Nat)) : Nat := (seg.map List.length).sum

/-- A segment respects the size cap up to its final chunk: the flushed
content other than the single last chunk stays below `maxFileSize`. -/
def segWithinCap (seg : List (List Nat)) : Bool :=
  sumSizes seg.dropLast < maxFileSize

theorem writtenBytes_def (st : CaptureState) :
    writtenBytes st = (st.closedSegs.map segBytes).flatten ++ st.currentSeg.flatten := by
  simp [writtenBytes, segBytes]

theorem sumSizes_concat (l : List (List Nat)) (x : List Nat) :
    sumSizes (l ++ [x]) = sumSizes l + x.length := by
  simp [sumSizes]

theorem sumSizes_dropLast_le (l : List (List Nat)) :
    sumSizes l.dropLast ≤ sumSizes l := by
  induction l with
  | nil => simp [sumSizes]
  | cons x xs ih =>
      cases xs with
      | nil => simp [sumSizes]
      | cons y ys =>
          simp only [List.dropLast_cons₂, sumSizes, List.map_cons, List.sum_cons] at ih ⊢
          omega

/-- A successful flush conserves the total of written-plus-buffered bytes. -/
theorem conserve_writeBufferToFile (st : CaptureState) :
    writtenBytes (writeBufferToFile true st) ++ (writeBufferToFile true st).buffer
      = writtenBytes st ++ st.buffer := by
  simp [writeBufferToFile, writtenBytes_def, segBytes]

/-- A rotation with a successful final flush conserves the total of
written-plus-buffered bytes (the buffer ends up empty). -/
theorem conserve_rotateFile (st : CaptureState) :
    writtenBytes (rotateFile true st) ++ (rotateFile true st).buffer
      = writtenBytes st ++ st.buffer := by
  by_cases hb : st.buffer.length > 0 <;>
    simp [rotateFile, hb, writtenBytes_def, segBytes]

/-- `writeBufferToFile` on a successful write, as one record update. -/
theorem writeBufferToFile_true_eq (st : CaptureState) :
    writeBufferToFile true st =
      { st with currentSeg := st.currentSeg ++ [st.buffer]
                currentSize := st.currentSize + st.buffer.length
                buffer := [] } := rfl

/-- `writeBufferToFile` on a failed write: the error is logged and the
function returns at once, buffer and `currentSize` untouched. -/
theorem writeBufferToFile_false_eq (st : CaptureState) :
    writeBufferToFile false st =
      { st with logs := st.logs ++ ["failed writing to backup file"] } := rfl

/-- `rotateFile` with nothing left in the buffer: no final flush, the
current segment closes as is. -/
theorem rotateFile_nilbuf (ok : Bool) (st : CaptureState) (hb : st.buffer = []) :
    rotateFile ok st =
      { st with closedSegs := st.closedSegs ++ [st.currentSeg]
                currentSeg := [], currentSize := 0 } := by
  simp [rotateFile, hb]

/-- `rotateFile` with a non-empty buffer and a successful final flush:
the buffered bytes become the closing chunk of the closed segment. -/
theorem rotateFile_true_posbuf (st : CaptureState) (hb : st.buffer ≠ []) :
    rotateFile true st =
      { st with closedSegs := st.closedSegs ++ [st.currentSeg ++ [st.buffer]]
                currentSeg := [], currentSize := 0, buffer := [] } := by
  have hl : st.buffer.length > 0 := List.length_pos.mpr hb
  simp [rotateFile, hl]

/-- The data-event branch of `processEvent` in which the appended buffer
reaches the flush threshold but the flushed size stays under the cap. -/
theorem processEvent_dataEv_flush (raw : List Nat) (wok rok : Bool)
    (st : CaptureState)
    (h1 : bufferSize ≤ ({ st with buffer := st.buffer ++ raw } :
        CaptureState).buffer.length)
    (h2 : ¬ maxFileSize ≤ (writeBufferToFile wok
        { st with buffer := st.buffer ++ raw }).currentSize) :
    processEvent (.dataEv raw) wok rok st
      = writeBufferToFile wok { st with buffer := st.buffer ++ raw } := by
  simp only [processEvent]
  rw [if_pos h1, if_neg h2]

theorem writtenBytes_setBinlog (st : CaptureState) (b : String) :
    writtenBytes { st with currentBinlog := b } = writtenBytes st := rfl

theorem buffer_setBinlog (st : CaptureState) (b : String) :
    ({ st with currentBinlog := b } : CaptureState).buffer = st.buffer := rfl

/-- One failure-free `processEvent` step adds exactly the event's payload
to the total of written-plus-buffered bytes. -/
theorem conserve_processEvent (e : BinlogEvent) (st : CaptureState) :
    writtenBytes (processEvent e true true st) ++ (processEvent e true true st).buffer
      = writtenBytes st ++ st.buffer ++ payloadOf e := by
  cases e with
  | rotateEv next =>
      simp only [processEvent]
      by_cases hb : st.buffer.length > 0 <;>
        simp only [hb, if_true, if_false]
      · rw [writtenBytes_setBinlog, buffer_setBinlog, conserve_rotateFile,
          conserve_writeBufferToFile]
        simp [payloadOf]
      · rw [writtenBytes_setBinlog, buffer_setBinlog, conserve_rotateFile]
        simp [payloadOf]
  | dataEv raw =>
      simp only [processEvent, payloadOf]
      by_cases h1 : bufferSize ≤ (st.buffer ++ raw).length <;>
        simp only [h1, if_true, if_false]
      · set st1 : CaptureState := { st with buffer := st.buffer ++ raw } with hst1
        have hc : writtenBytes (writeBufferToFile true st1)
              ++ (writeBufferToFile true st1).buffer
            = writtenBytes st ++ (st.buffer ++ raw) := by
          simpa [hst1, writtenBytes_def] using conserve_writeBufferToFile st1
        by_cases h2 : maxFileSize ≤ (writeBufferToFile true st1).currentSize <;>
          simp only [h2, if_true, if_false]
        · have := conserve_rotateFile (writeBufferToFile true st1)
          rw [this, hc, List.append_assoc]
        · rw [hc, List.append_assoc]
      · by_cases h2 : maxFileSize ≤ st.currentSize <;>
          simp only [h2, if_true, if_false]
        · have := conserve_rotateFile { st with buffer := st.buffer ++ raw }
          simp only [writtenBytes_def] at this ⊢
          simpa using this
        · simp [writtenBytes_def]

theorem conserve_fold (evs : List BinlogEvent) (st : CaptureState) :
    writtenBytes (evs.foldl (fun s e => processEvent e true true s) st)
        ++ (evs.foldl (fun s e => processEvent e true true s) st).buffer
      = writtenBytes st ++ st.buffer ++ payloadBytes evs := by
  induction evs generalizing st with
  | nil => simp [payloadBytes]
  | cons e rest ih =>
      simp only [List.foldl_cons]
      rw [ih, conserve_processEvent]
      simp [payloadBytes, List.append_assoc]

theorem runOk_eq_foldl (evs : List BinlogEvent) :
    runOk evs = evs.foldl (fun s e => processEvent e true true s) initState := by
  simp [runOk, runEvents, List.foldl_map]

/-- Written-plus-buffered bytes of a failure-free run equal the
concatenation of all data payloads in delivery order. -/
theorem runOk_conservation (evs : List BinlogEvent) :
    writtenBytes (runOk evs) ++ (runOk evs).buffer = payloadBytes evs := by
  rw [runOk_eq_foldl]
  simpa [initState, writtenBytes_def] using conserve_fold evs initState

/-- A failure-free step closes a segment only on a `ROTATE` event or when
the flushed size of the current segment crosses the cap. -/
theorem closedSegs_growth (e : BinlogEvent) (st : CaptureState)
    (h : (processEvent e true true st).closedSegs.length ≠ st.closedSegs.length) :
    isRotateEv e = true ∨
      maxFileSize ≤ st.currentSize + st.buffer.length + (payloadOf e).length := by
  cases e with
  | rotateEv next => exact Or.inl rfl
  | dataEv raw =>
      refine Or.inr ?_
      simp only [processEvent, payloadOf] at h ⊢
      split at h
      next h1 =>
        rw [writeBufferToFile_true_eq] at h
        split at h
        next h2 => simp at h2; omega
        next h2 => simp at h
      next h1 =>
        split at h
        next h2 => simp at h2; omega
        next h2 => simp at h

/-- The size invariant maintained between events of a failure-free run:
`currentSize` mirrors the flushed content of the open segment, stays below
the cap, and every closed segment is within the cap up to its final
chunk. -/
def sizeInv (st : CaptureState) : Prop :=
  st.currentSize = sumSizes st.currentSeg ∧
  st.currentSize < maxFileSize ∧
  st.closedSegs.all segWithinCap = true

theorem sizeInv_init : sizeInv initState := by
  refine ⟨rfl, by norm_num [initState, maxFileSize], rfl⟩

theorem sizeInv_step (e : BinlogEvent) (st : CaptureState) (hinv : sizeInv st) :
    sizeInv (processEvent e true true st) := by
  obtain ⟨hsz, hlt, hall⟩ := hinv
  have hmax : 0 < maxFileSize := by norm_num [maxFileSize]
  cases e with
  | rotateEv next =>
      simp only [processEvent]
      split
      next hb =>
        rw [writeBufferToFile_true_eq, rotateFile_nilbuf _ _ rfl]
        refine ⟨rfl, hmax, ?_⟩
        simp only [List.all_append, List.all_cons, List.all_nil, Bool.and_true,
          hall, Bool.true_and]
        simp only [segWithinCap, List.dropLast_concat, decide_eq_true_eq]
        omega
      next hb =>
        rw [rotateFile_nilbuf _ _ (List.length_eq_zero.mp (by omega))]
        refine ⟨rfl, hmax, ?_⟩
        simp only [List.all_append, List.all_cons, List.all_nil, Bool.and_true,
          hall, Bool.true_and]
        simp only [segWithinCap, decide_eq_true_eq]
        exact lt_of_le_of_lt (sumSizes_dropLast_le _) (hsz ▸ hlt)
  | dataEv raw =>
      simp only [processEvent]
      split
      next h1 =>
        rw [writeBufferToFile_true_eq]
        split
        next h2 =>
          rw [rotateFile_nilbuf _ _ rfl]
          refine ⟨rfl, hmax, ?_⟩
          simp only [List.all_append, List.all_cons, List.all_nil, Bool.and_true,
            hall, Bool.true_and]
          simp only [segWithinCap, List.dropLast_concat, decide_eq_true_eq]
          omega
        next h2 =>
          simp only at h2
          refine ⟨?_, ?_, hall⟩
          · simp [sumSizes_concat, hsz]
          · simp at h2 ⊢; omega
      next h1 =>
        split
        next h2 => exfalso; simp at h2; omega
        next h2 => exact ⟨hsz, hlt, hall⟩

theorem sizeInv_runOk (evs : List BinlogEvent) : sizeInv (runOk evs) := by
  rw [runOk_eq_foldl]
  induction evs using List.reverseRecOn with
  | nil => exact sizeInv_init
  | append_singleton rest e ih =>
      rw [List.foldl_append, List.foldl_cons, List.foldl_nil]
      exact sizeInv_step e _ ih

/-- C1 (counterexample): the claim as stated fails — after a single small
`DATA` event the payload is still in the in-memory buffer, so the bytes
written across segment files are empty while the concatenation of `DATA`
payloads is not. -/
theorem C1_counterexample :
    writtenBytes (runOk [BinlogEvent.dataEv [0]]) = [] ∧
    payloadBytes [BinlogEvent.dataEv [0]] = [0] ∧
    ([] : List Nat) ≠ [0] := by
  refine ⟨by decide, by decide, by decide⟩

/-- C1 (amended): in a failure-free run, the bytes written across
segments, concatenated in segment-sequence order, followed by the bytes
still in the in-memory buffer, equal the concatenation of all `DATA`
payloads in delivery order; and a segment boundary occurs only at a
`ROTATE` event or when the flushed size of the current segment crosses
the `maxFileSize` cap. -/
theorem C1_amended_thm :
    (∀ evs : List BinlogEvent,
        writtenBytes (runOk evs) ++ (runOk evs).buffer = payloadBytes evs) ∧
    (∀ (e : BinlogEvent) (st : CaptureState),
        (processEvent e true true st).closedSegs.length ≠ st.closedSegs.length →
        isRotateEv e = true ∨
          maxFileSize ≤ st.currentSize + st.buffer.length + (payloadOf e).length) :=
  ⟨runOk_conservation, closedSegs_growth⟩

/-- C1 (witness): the amended theorem applied at a concrete trace and a
concrete rotation step. -/
theorem C1_amended_witness :
    (writtenBytes (runOk [BinlogEvent.dataEv [7], BinlogEvent.rotateEv "binlog.000002"])
        ++ (runOk [BinlogEvent.dataEv [7], BinlogEvent.rotateEv "binlog.000002"]).buffer
      = payloadBytes [BinlogEvent.dataEv [7], BinlogEvent.rotateEv "binlog.000002"]) ∧
    (isRotateEv (BinlogEvent.rotateEv "binlog.000002") = true ∨
      maxFileSize ≤ initState.currentSize + initState.buffer.length
        + (payloadOf (BinlogEvent.rotateEv "binlog.000002")).length) :=
  ⟨C1_amended_thm.1 _, C1_amended_thm.2 _ initState (by decide)⟩

/-- C5: a `ROTATE` event always flushes the buffered bytes into the
segment being closed, rotates unconditionally (no size-cap condition: the
state is arbitrary, in particular the current segment may be under the
cap), and updates the tracked log identity to the event's next log
name. -/
theorem C5_rotate_event (st : CaptureState) (next : String) :
    (processEvent (.rotateEv next) true true st).closedSegs
        = st.closedSegs ++
            [st.currentSeg ++ (if st.buffer = [] then [] else [st.buffer])] ∧
    (processEvent (.rotateEv next) true true st).currentSeg = [] ∧
    (processEvent (.rotateEv next) true true st).currentSize = 0 ∧
    (processEvent (.rotateEv next) true true st).buffer = [] ∧
    (processEvent (.rotateEv next) true true st).currentBinlog = next := by
  simp only [processEvent]
  split
  next hb =>
      rw [writeBufferToFile_true_eq, rotateFile_nilbuf _ _ rfl]
      have : ¬ st.buffer = [] := by
        intro hnil; rw [hnil] at hb; simp at hb
      simp [this]
  next hb =>
      have hnil : st.buffer = [] := List.length_eq_zero.mp (by omega)
      rw [rotateFile_nilbuf _ _ hnil]
      simp [hnil]

/-- C6: in any failure-free run, every segment — closed or still open —
holds less than `maxFileSize` flushed bytes apart from its single final
chunk (the chunk in flight at cap-crossing time), and between events the
flushed size of the open segment is always strictly below the cap, so a
segment whose flushed size has reached the cap is rotated before any
further flush into it. -/
theorem C6_size_cap_invariant (evs : List BinlogEvent) :
    ((runOk evs).closedSegs ++ [(runOk evs).currentSeg]).all segWithinCap = true ∧
    (runOk evs).currentSize < maxFileSize := by
  obtain ⟨hsz, hlt, hall⟩ := sizeInv_runOk evs
  refine ⟨?_, hlt⟩
  simp only [List.all_append, List.all_cons, List.all_nil, Bool.and_true, hall,
    Bool.true_and]
  simp only [segWithinCap, decide_eq_true_eq]
  exact lt_of_le_of_lt (sumSizes_dropLast_le _) (hsz ▸ hlt)

/-- A buffer-filling data event whose write fails leaves the bytes in the
buffer, and the next successful flush writes them into the segment. -/
theorem c8_retry_general (p : List Nat) (hp : bufferSize ≤ p.length)
    (hcap : p.length + 1 < maxFileSize) :
    (runEvents [(BinlogEvent.dataEv p, false, true)]).buffer = p ∧
    (runEvents [(BinlogEvent.dataEv p, false, true)]).logs
        = ["failed writing to backup file"] ∧
    (runEvents [(BinlogEvent.dataEv p, false, true),
                (BinlogEvent.dataEv [1], true, true)]).currentSeg = [p ++ [1]] := by
  have e1 : processEvent (BinlogEvent.dataEv p) false true initState
      = { buffer := p, currentSize := 0, closedSegs := [], currentSeg := []
          currentBinlog := "binlog.000001"
          logs := ["failed writing to backup file"] } := by
    rw [processEvent_dataEv_flush p false true initState
      (by simpa [initState] using hp)
      (by rw [writeBufferToFile_false_eq]; simp [initState, maxFileSize])]
    rw [writeBufferToFile_false_eq]
    simp [initState]
  have h1 : runEvents [(BinlogEvent.dataEv p, false, true)]
      = { buffer := p, currentSize := 0, closedSegs := [], currentSeg := []
          currentBinlog := "binlog.000001"
          logs := ["failed writing to backup file"] } := by
    simp only [runEvents, List.foldl_cons, List.foldl_nil]
    exact e1
  refine ⟨by rw [h1], by rw [h1], ?_⟩
  have h2 : runEvents [(BinlogEvent.dataEv p, false, true),
        (BinlogEvent.dataEv [1], true, true)]
      = processEvent (BinlogEvent.dataEv [1]) true true
          (runEvents [(BinlogEvent.dataEv p, false, true)]) := by
    simp only [runEvents, List.foldl_cons, List.foldl_nil]
  have e2 := processEvent_dataEv_flush [1] true true
      { buffer := p, currentSize := 0, closedSegs := [], currentSeg := []
        currentBinlog := "binlog.000001"
        logs := ["failed writing to backup file"] }
      (by simp; omega) (by rw [writeBufferToFile_true_eq]; simp; omega)
  rw [h2, h1, e2, writeBufferToFile_true_eq]
  simp

/-- C8 (counterexample): the claim as stated fails — when
`writeBufferToFile` fails, the affected bytes are NOT dropped: the buffer
still carries them (the clearing `buffer = buffer[:0]` is only reached on
success), and the very next successful flush writes those same bytes into
the segment file. -/
theorem C8_counterexample :
    (runEvents [(BinlogEvent.dataEv (List.replicate bufferSize 7), false, true)]).buffer
        = List.replicate bufferSize 7 ∧
    (runEvents [(BinlogEvent.dataEv (List.replicate bufferSize 7), false, true)]).logs
        = ["failed writing to backup file"] ∧
    (runEvents [(BinlogEvent.dataEv (List.replicate bufferSize 7), false, true),
                (BinlogEvent.dataEv [1], true, true)]).currentSeg
        = [List.replicate bufferSize 7 ++ [1]] ∧
    List.replicate bufferSize 7 ≠ ([] : List Nat) := by
  have h := c8_retry_general (List.replicate bufferSize 7) (by simp)
    (by rw [List.length_replicate]; norm_num [bufferSize, maxFileSize])
  exact ⟨h.1, h.2.1, h.2.2, by norm_num [bufferSize]⟩

/-- C8 (amended): a failed `writeBufferToFile` is logged (with the error
only — no position context) and leaves the buffered bytes in place, to be
carried into the next flush; only `rotateFile`'s final flush drops the
buffered bytes on failure — it logs, clears the buffer, and closes the
segment without the lost chunk. -/
theorem C8_amended_thm (st : CaptureState) :
    (writeBufferToFile false st).buffer = st.buffer ∧
    (writeBufferToFile false st).currentSeg = st.currentSeg ∧
    (writeBufferToFile false st).logs
        = st.logs ++ ["failed writing to backup file"] ∧
    (rotateFile false st).buffer = [] ∧
    (rotateFile false st).closedSegs = st.closedSegs ++ [st.currentSeg] ∧
    (rotateFile false st).logs
        = st.logs ++ (if st.buffer = [] then []
                      else ["failed flushing remaining data"]) := by
  refine ⟨rfl, rfl, rfl, ?_, ?_, ?_⟩
  · by_cases hb : st.buffer = []
    · simp [rotateFile, hb]
    · simp [rotateFile, hb, List.length_pos.mpr hb]
  · by_cases hb : st.buffer = []
    · simp [rotateFile, hb]
    · simp [rotateFile, hb, List.length_pos.mpr hb]
  · by_cases hb : st.buffer = []
    · simp [rotateFile, hb]
    · simp [rotateFile, hb, List.length_pos.mpr hb]

/-! ## Position cursor store (incremental_backup.go:126-143, full backup
`saveCurrentBinlogPosition`)

The metadata file is modelled as `Option String`: `none` when the file is
absent (`os.Open` fails; the deferred `Close` and the `Fscanf` on the
invalid handle just produce logged errors), `some content` otherwise. -/

/-- `mysql.Position`: the resumable binlog coordinate.  `Pos` is a
`uint32` in the source; range enforcement happens where the source
enforces it (the `%d` scan rejects values over 32 bits). -/
structure Position where
  name : String
  pos : Nat
  deriving Repr, DecidableEq

/-- The character written for a decimal digit `d < 10`. -/
def digitChar (d : Nat) : Char := Char.ofNat (48 + d)

/-- Digit-producing loop of the decimal renderer; `fuel` only bounds the
recursion (any `fuel > n` gives the digits of `n` before `acc`). -/
def toDecimalAux : Nat → Nat → List Char → List Char
  | 0, _, acc => acc
  | fuel + 1, n, acc =>
      if n < 10 then digitChar n :: acc
      else toDecimalAux fuel (n / 10) (digitChar (n % 10) :: acc)

/-- Standard decimal rendering of a natural number, most significant
digit first — the output of `fmt`'s `%d` for a non-negative integer. -/
def toDecimal (n : Nat) : List Char := toDecimalAux (n + 1) n []

theorem toDecimalAux_acc (n : Nat) : ∀ fuel acc, n < fuel →
    toDecimalAux fuel n acc = toDecimalAux fuel n [] ++ acc := by
  induction n using Nat.strong_induction_on with
  | _ n ih =>
      intro fuel acc hf
      match fuel with
      | 0 => omega
      | f + 1 =>
          by_cases h10 : n < 10
          · simp [toDecimalAux, h10]
          · have hd : n / 10 < n := Nat.div_lt_self (by omega) (by norm_num)
            simp only [toDecimalAux]
            rw [if_neg h10, if_neg h10,
              ih (n / 10) hd f (digitChar (n % 10) :: acc) (by omega),
              ih (n / 10) hd f [digitChar (n % 10)] (by omega)]
            simp

theorem toDecimalAux_fuel (n : Nat) : ∀ f1 f2, n < f1 → n < f2 →
    toDecimalAux f1 n [] = toDecimalAux f2 n [] := by
  induction n using Nat.strong_induction_on with
  | _ n ih =>
      intro f1 f2 h1 h2
      match f1, f2 with
      | 0, _ => omega
      | _ + 1, 0 => omega
      | g1 + 1, g2 + 1 =>
          by_cases h10 : n < 10
          · simp [toDecimalAux, h10]
          · have hd : n / 10 < n := Nat.div_lt_self (by omega) (by norm_num)
            simp only [toDecimalAux]
            rw [if_neg h10, if_neg h10,
              toDecimalAux_acc (n / 10) g1 _ (by omega),
              toDecimalAux_acc (n / 10) g2 _ (by omega),
              ih (n / 10) hd g1 g2 (by omega) (by omega)]

/-- The recursive characterisation of the decimal renderer. -/
theorem toDecimal_eq (n : Nat) :
    toDecimal n = if n < 10 then [digitChar n]
                  else toDecimal (n / 10) ++ [digitChar (n % 10)] := by
  by_cases h10 : n < 10
  · simp [toDecimal, toDecimalAux, h10]
  · have hd : n / 10 < n := Nat.div_lt_self (by omega) (by norm_num)
    rw [if_neg h10]
    show toDecimalAux (n + 1) n [] = _
    have hstep : toDecimalAux (n + 1) n []
        = toDecimalAux n (n / 10) (digitChar (n % 10) :: []) := by
      simp only [toDecimalAux]
      rw [if_neg h10]
    rw [hstep, toDecimalAux_acc (n / 10) n _ (by omega),
      toDecimalAux_fuel (n / 10) n (n / 10 + 1) (by omega) (by omega)]
    rfl

def digitVal (c : Char) : Nat := c.toNat - 48

/-- The value a decimal scanner assigns to a digit string (the semantics
of `strconv.ParseUint` on a digit-only token). -/
def digitsToNat (l : List Char) : Nat :=
  l.foldl (fun a c => a * 10 + digitVal c) 0

/-- The blank characters `fmt`'s scanner skips between operands on a
single line (space and tab; a newline would have to match a newline in
the format string, so it is not skipped). -/
def isBlank (c : Char) : Bool := c == ' ' || c == '\t'

/-- The characters `unicode.IsSpace` accepts, restricted to the ASCII
range relevant to this file format; a `%s` token runs up to the first of
these. -/
def isSpaceChar (c : Char) : Bool :=
  c == ' ' || c == '\t' || c == '\n' || c == '\r'

/-- The effect of `fmt.Fscanf(file, "%s %d", &binlogFile, &binlogPos)`
(incremental_backup.go:133-134): `%s` skips blanks and takes the maximal
non-space token; `%d` (into a `uint32`) skips blanks and takes the
maximal digit run, rejecting values that do not fit in 32 bits.  A field
that fails to scan keeps its zero value, and fields scanned before the
failure keep their scanned values — `Fscanf`'s error is only logged by
the caller. -/
def scanStringInt (input : List Char) : String × Nat :=
  let s1 := input.dropWhile isBlank
  let tok := s1.takeWhile (fun c => !(isSpaceChar c))
  if tok.isEmpty then ("", 0)
  else
    let s2 := (s1.drop tok.length).dropWhile isBlank
    let digits := s2.takeWhile Char.isDigit
    if digits.isEmpty then (⟨tok⟩, 0)
    else if digitsToNat digits < 2 ^ 32 then (⟨tok⟩, digitsToNat digits)
    else (⟨tok⟩, 0)

/-- `getLastBinlogPosition` (incremental_backup.go:126-143): open the
metadata file, scan `"%s %d"`, log any error, and return whatever was
scanned — the zero values when the file was absent.  Total: it never
returns an error and never panics. -/
def getLastBinlogPosition (metadataFile : Option String) : Position :=
  match metadataFile with
  | none => { name := "", pos := 0 }
  | some content =>
      let r := scanStringInt content.data
      { name := r.1, pos := r.2 }

/-- The metadata record `saveCurrentBinlogPosition` writes
(`fmt.Sprintf("%s %d\n", binlogFile, binlogPos)`, part of the full-backup
step). -/
def savedPositionContent (p : Position) : String :=
  ⟨p.name.data ++ ' ' :: (toDecimal p.pos ++ ['\n'])⟩

/-- The start position `MysqlIncrementalBackup`
(incremental_backup.go:145-168) computes from the metadata file and
passes verbatim to `syncer.StartSync`. -/
def mysqlIncrementalBackupStartPos (metadataFile : Option String) : Position :=
  getLastBinlogPosition metadataFile

theorem digitsToNat_concat (l : List Char) (c : Char) :
    digitsToNat (l ++ [c]) = 10 * digitsToNat l + digitVal c := by
  simp [digitsToNat, List.foldl_append, Nat.mul_comm]

theorem digitVal_digitChar (d : Nat) (h : d < 10) :
    digitVal (digitChar d) = d := by
  interval_cases d <;> decide

theorem isDigit_digitChar (d : Nat) (h : d < 10) :
    (digitChar d).isDigit = true := by
  interval_cases d <;> decide

theorem digitsToNat_toDecimal (n : Nat) : digitsToNat (toDecimal n) = n := by
  induction n using Nat.strong_induction_on with
  | _ n ih =>
      rw [toDecimal_eq]
      split
      next h =>
          simp [digitsToNat, digitVal_digitChar n h]
      next h =>
          rw [digitsToNat_concat,
            ih (n / 10) (Nat.div_lt_self (by omega) (by norm_num)),
            digitVal_digitChar (n % 10) (Nat.mod_lt _ (by norm_num))]
          omega

theorem toDecimal_ne_nil (n : Nat) : toDecimal n ≠ [] := by
  rw [toDecimal_eq]
  split <;> simp

theorem toDecimal_all_digit (n : Nat) :
    ∀ c ∈ toDecimal n, c.isDigit = true := by
  induction n using Nat.strong_induction_on with
  | _ n ih =>
      rw [toDecimal_eq]
      split
      next h => simpa using isDigit_digitChar n h
      next h =>
          intro c hc
          rcases List.mem_append.mp hc with h' | h'
          · exact ih (n / 10) (Nat.div_lt_self (by omega) (by norm_num)) c h'
          · simpa [List.mem_singleton.mp h'] using
              isDigit_digitChar (n % 10) (Nat.mod_lt _ (by norm_num))

theorem isBlank_eq_false_of_isDigit (c : Char) (h : c.isDigit = true) :
    isBlank c = false := by
  simp only [isBlank, Bool.or_eq_false_iff, beq_eq_false_iff_ne, ne_eq]
  constructor <;> rintro rfl <;> exact absurd h (by decide)

theorem isSpaceChar_of_isBlank (c : Char) (h : isBlank c = true) :
    isSpaceChar c = true := by
  simp only [isBlank, Bool.or_eq_true, beq_iff_eq] at h
  rcases h with rfl | rfl <;> decide

theorem takeWhile_append_all {α} (p : α → Bool) (l r : List α)
    (h : ∀ c ∈ l, p c = true) :
    List.takeWhile p (l ++ r) = l ++ List.takeWhile p r := by
  induction l with
  | nil => simp
  | cons x xs ih =>
      simp [List.cons_append, List.takeWhile_cons,
        h x (List.mem_cons_self x xs), ih fun c hc => h c (List.mem_cons_of_mem x hc)]

/-- C3: saving a `LogPosition` with a non-empty whitespace-free
`logIdentity` and a 32-bit offset to the metadata record, then starting a
fresh incremental backup over that record, yields exactly the saved
position as the start position handed to the event source
(`StartSync`). -/
theorem C3_roundtrip (p : Position) (hne : p.name ≠ "")
    (hws : ∀ c ∈ p.name.data, isSpaceChar c = false)
    (h32 : p.pos < 2 ^ 32) :
    mysqlIncrementalBackupStartPos (some (savedPositionContent p)) = p := by
  obtain ⟨⟨l⟩, pos⟩ := p
  simp only at hws
  have hl : l ≠ [] := fun h => hne (by simp [h])
  obtain ⟨c, cs, rfl⟩ := List.exists_cons_of_ne_nil hl
  obtain ⟨d, ds, hdec⟩ := List.exists_cons_of_ne_nil (toDecimal_ne_nil pos)
  have hdigit : ∀ x ∈ toDecimal pos, x.isDigit = true := toDecimal_all_digit pos
  have hcb : isBlank c = false := by
    cases hb : isBlank c
    · rfl
    · have hsp := isSpaceChar_of_isBlank c hb
      rw [hws c (List.mem_cons_self _ _)] at hsp
      exact absurd hsp (by simp)
  have hdb : isBlank d = false :=
    isBlank_eq_false_of_isDigit d (hdigit d (hdec ▸ List.mem_cons_self _ _))
  have htok : (((c :: cs) ++ ' ' :: (toDecimal pos ++ ['\n'])) :
        List Char).takeWhile (fun x => !(isSpaceChar x)) = c :: cs := by
    rw [takeWhile_append_all _ _ _ (fun x hx => by simp [hws x hx])]
    simp [List.takeWhile_cons]
    decide
  have hs2 : ((' ' :: (toDecimal pos ++ ['\n'])) : List Char).dropWhile isBlank
      = toDecimal pos ++ ['\n'] := by
    rw [List.dropWhile_cons]
    simp only [show isBlank ' ' = true from rfl, if_true, hdec, List.cons_append,
      List.dropWhile_cons, hdb, Bool.false_eq_true, if_false]
  have hdigits : (toDecimal pos ++ ['\n']).takeWhile Char.isDigit
      = toDecimal pos := by
    rw [takeWhile_append_all _ _ _ hdigit]
    simp [List.takeWhile_cons]
  simp only [mysqlIncrementalBackupStartPos, getLastBinlogPosition,
    savedPositionContent, scanStringInt, List.cons_append]
  rw [show ((c :: (cs ++ ' ' :: (toDecimal pos ++ ['\n']))) :
      List Char).dropWhile isBlank
    = c :: (cs ++ ' ' :: (toDecimal pos ++ ['\n'])) by
      simp [List.dropWhile_cons, hcb]]
  rw [show ((c :: (cs ++ ' ' :: (toDecimal pos ++ ['\n']))) : List Char)
      = (c :: cs) ++ ' ' :: (toDecimal pos ++ ['\n']) from rfl]
  rw [htok]
  rw [show ((c :: cs) ++ ' ' :: (toDecimal pos ++ ['\n'])).drop (c :: cs).length
      = ' ' :: (toDecimal pos ++ ['\n']) from List.drop_left _ _]
  rw [hs2, hdigits]
  have h32' : pos < 4294967296 := by simpa using h32
  simp [digitsToNat_toDecimal, h32', toDecimal_ne_nil pos]

/-- C3 (witness): the round-trip theorem at the spec's concrete cursor
`LogPosition{logIdentity: "binlog.5", offset: 1000}`. -/
theorem C3_roundtrip_witness :
    mysqlIncrementalBackupStartPos
        (some (savedPositionContent { name := "binlog.5", pos := 1000 }))
      = { name := "binlog.5", pos := 1000 } :=
  C3_roundtrip { name := "binlog.5", pos := 1000 } (by decide) (by decide)
    (by norm_num)

/-- C4 (counterexample): a malformed metadata file does not yield the
documented initial position — the fields scanned before the failure are
kept, so content `"abc"` (a name token with no offset) loads as
`{logIdentity: "abc", offset: 0}`, which is neither the empty position
nor the initial binlog name. -/
theorem C4_counterexample :
    getLastBinlogPosition (some "abc") = { name := "abc", pos := 0 } ∧
    ({ name := "abc", pos := 0 } : Position) ≠ { name := "", pos := 0 } ∧
    ({ name := "abc", pos := 0 } : Position)
      ≠ { name := "binlog.000001", pos := 0 } := by
  refine ⟨by decide, by decide, by decide⟩

/-- C4 (amended): loading never fails (the function is total, returning a
position in every case, with errors only logged); an absent metadata file
loads as the zero position `{logIdentity: "", offset: 0}` (not a named
first-log position), a file with no token likewise, and a well-formed
record parses into its two fields.  A malformed file keeps whatever
fields were scanned before the failure (see the counterexample). -/
theorem C4_amended_thm :
    getLastBinlogPosition none = { name := "", pos := 0 } ∧
    getLastBinlogPosition (some "") = { name := "", pos := 0 } ∧
    getLastBinlogPosition (some " \t ") = { name := "", pos := 0 } ∧
    getLastBinlogPosition (some "binlog.000042 1337")
      = { name := "binlog.000042", pos := 1337 } := by
  refine ⟨rfl, by decide, by decide, by decide⟩

/-! ## Gregorian calendar arithmetic (the parts of Go's `time` package
the key derivation and the scheduler depend on: `Parse("20060102", …)`,
`ISOWeek`, `Weekday`, `Date`, `AddDate`). -/

/-- Go `isLeap`: divisible by 4, except centuries not divisible by 400. -/
def isLeap (y : Nat) : Bool := y % 4 == 0 && (y % 100 != 0 || y % 400 == 0)

/-- Cumulative day counts before each month in a non-leap year
(index `m-1` for month `m`; index 12 is the year length). -/
def cumDaysTable : List Nat :=
  [0, 31, 59, 90, 120, 151, 181, 212, 243, 273, 304, 334, 365]

/-- Days in the year before month `m` (1-based; `m = 13` gives the year
length). -/
def daysBeforeMonth (y m : Nat) : Nat :=
  cumDaysTable.getD (m - 1) 0 + (if 3 ≤ m ∧ isLeap y then 1 else 0)

/-- Go `daysIn(m, year)`. -/
def daysInMonth (y m : Nat) : Nat :=
  daysBeforeMonth y (m + 1) - daysBeforeMonth y m

/-- Leap years strictly before year `y` in the proleptic Gregorian
calendar (year 0 is leap). -/
def numLeapYearsBefore (y : Nat) : Nat :=
  if y = 0 then 0 else (y - 1) / 4 - (y - 1) / 100 + (y - 1) / 400 + 1

/-- Days from 0000-01-01 to the start of year `y`. -/
def daysBeforeYear (y : Nat) : Nat := 365 * y + numLeapYearsBefore y

/-- Day number of a civil date: days since 0000-01-01. -/
def dayNumber (y m d : Nat) : Nat :=
  daysBeforeYear y + daysBeforeMonth y m + (d - 1)

/-- Go `Weekday` (Sunday = 0) of a day number; 0000-01-01 is a
Saturday. -/
def goWeekday (n : Nat) : Nat := (n + 6) % 7

/-- `time.Weekday.String()`. -/
def weekdayName : Nat → String
  | 0 => "Sunday"
  | 1 => "Monday"
  | 2 => "Tuesday"
  | 3 => "Wednesday"
  | 4 => "Thursday"
  | 5 => "Friday"
  | _ => "Saturday"

/-- The year containing day number `n` (bounded search from the lower
guess `n / 366`; the search window of 64 years covers all day numbers of
years 0–9999). -/
def yearOfDay (n : Nat) : Nat :=
  let g := n / 366
  g + (((List.range 64).find? fun k => n < daysBeforeYear (g + k + 1)).getD 0)

/-- The month (1-based) containing 0-based day-of-year `doy` of year
`y`: the largest month whose cumulative start is not past `doy`. -/
def monthOfYearDay (y doy : Nat) : Nat :=
  ((((List.range 12).map fun i => i + 1).filter
      fun m => daysBeforeMonth y m ≤ doy).getLastD 1)

/-- Inverse of `dayNumber`: the civil date of a day number (the
normalisation `time.Date`/`AddDate` perform). -/
def fromDayNumber (n : Nat) : Nat × Nat × Nat :=
  let y := yearOfDay n
  let doy := n - daysBeforeYear y
  let m := monthOfYearDay y doy
  (y, m, doy - daysBeforeMonth y m + 1)

/-- Go `Time.ISOWeek()`: the ISO 8601 year and week of a day number —
the year and (1-based) week index of the Thursday of the date's
Mon–Sun week.  Day numbers before 0000-01-04 (whose ISO week belongs to
the year before year 0) are outside the embedding's domain. -/
def isoYearWeek (n : Nat) : Nat × Nat :=
  let wd := goWeekday n
  let isoWd := if wd = 0 then 7 else wd
  let th := n + 4 - isoWd
  let y := yearOfDay th
  (y, (th - daysBeforeYear y) / 7 + 1)

/-- Go `time.Parse("20060102", s)`: exactly eight digits, month 1–12,
day within the month (leap-aware); `none` models a parse error. -/
def parseDate8 (s : String) : Option (Nat × Nat × Nat) :=
  let cs := s.data
  if cs.length = 8 ∧ cs.all Char.isDigit then
    let y := digitsToNat (cs.take 4)
    let m := digitsToNat ((cs.drop 4).take 2)
    let d := digitsToNat (cs.drop 6)
    if 1 ≤ m ∧ m ≤ 12 ∧ 1 ≤ d ∧ d ≤ daysInMonth y m then some (y, m, d)
    else none
  else none

/-! ## String utilities (`strings.Contains`, `strings.Split`,
`fmt.Sprintf` number formatting) — implemented structurally on the
character list so they evaluate. -/

/-- Whether `pat` begins the character list. -/
def startsWithSeq : List Char → List Char → Bool
  | [], _ => true
  | _ :: _, [] => false
  | p :: ps, c :: cs => p == c && startsWithSeq ps cs

/-- Whether `pat` occurs anywhere in the character list
(`strings.Contains` for a non-empty pattern). -/
def containsSeq (pat : List Char) : List Char → Bool
  | [] => startsWithSeq pat []
  | c :: rest => startsWithSeq pat (c :: rest) || containsSeq pat rest

def goContains (s pat : String) : Bool := containsSeq pat.data s.data

/-- `strings.Split(s, sep)` for a single-character separator (both call
sites split on `"_"`; the empty string yields `[""]`). -/
def splitOnChar (sep : Char) : List Char → List (List Char)
  | [] => [[]]
  | c :: rest =>
      let r := splitOnChar sep rest
      if c == sep then [] :: r
      else (c :: r.headD []) :: r.tail

/-- The underscore tokens of a file name (`strings.Split(fileName, "_")`;
its head is also the first token of `strings.SplitN(fileName, "_", 2)`,
which the full-backup branch uses). -/
def splitUnderscore (s : String) : List String :=
  (splitOnChar '_' s.data).map fun l => ⟨l⟩

def natToString (n : Nat) : String := ⟨toDecimal n⟩

/-- `%02d` for the week number. -/
def pad2 (n : Nat) : String :=
  if n < 10 then "0" ++ natToString n else natToString n

/-! ## Remote storage key derivation (upload.go:132-190) -/

/-- `getS3Key` (upload.go:132-163): full-backup artifacts (name contains
`"full_backup"`) key to `<isoYear>/<isoWeek>/<fileName>` with the date
taken from the token before the first underscore; incremental artifacts
(name contains `"incr_backup"`, at least 5 underscore tokens) key to
`<isoYear>/<isoWeek>/<weekdayName>/<fileName>` with the date taken from
the second-to-last token; anything else is an error. -/
def getS3Key (fileName : String) : Except String String :=
  if goContains fileName "full_backup" then
    let dateStr := (splitUnderscore fileName).headD ""
    match parseDate8 dateStr with
    | none => Except.error ("failed to parse date " ++ dateStr)
    | some (y, m, d) =>
        let n := dayNumber y m d
        Except.ok (natToString (isoYearWeek n).1 ++ "/" ++ pad2 (isoYearWeek n).2
          ++ "/" ++ fileName)
  else if goContains fileName "incr_backup" then
    let tokens := splitUnderscore fileName
    if tokens.length < 5 then
      Except.error ("invalid incremental backup file name: " ++ fileName)
    else
      let dateStr := tokens.getD (tokens.length - 2) ""
      match parseDate8 dateStr with
      | none => Except.error ("failed to parse date " ++ dateStr)
      | some (y, m, d) =>
          let n := dayNumber y m d
          Except.ok (natToString (isoYearWeek n).1 ++ "/" ++ pad2 (isoYearWeek n).2
            ++ "/" ++ weekdayName (goWeekday n) ++ "/" ++ fileName)
  else Except.error ("unknown backup file type: " ++ fileName)

/-- `getStreamS3Key` (upload.go:174-190): like the incremental branch of
`getS3Key` but keying the single rolling object
`<isoYear>/<isoWeek>/weekly-binlog.log`. -/
def getStreamS3Key (fileName : String) : Except String String :=
  if goContains fileName "incr_backup" then
    let tokens := splitUnderscore fileName
    if tokens.length < 5 then
      Except.error ("invalid incremental backup file name: " ++ fileName)
    else
      let dateStr := tokens.getD (tokens.length - 2) ""
      match parseDate8 dateStr with
      | none => Except.error ("failed to parse date " ++ dateStr)
      | some (y, m, d) =>
          let n := dayNumber y m d
          Except.ok (natToString (isoYearWeek n).1 ++ "/" ++ pad2 (isoYearWeek n).2
            ++ "/" ++ "weekly-binlog.log")
  else Except.error ("unknown backup file type: " ++ fileName)

/-- C9: key derivation.  A full-backup name (containing `"full_backup"`)
whose leading token parses as a `YYYYMMDD` date keys to
`<isoYear>/<isoWeek>/<fileName>`; an incremental name (containing
`"incr_backup"`) with at least five underscore tokens whose
second-to-last token parses keys to
`<isoYear>/<isoWeek>/<weekdayName>/<fileName>`, and its streaming key is
`<isoYear>/<isoWeek>/weekly-binlog.log` — year and week being the ISO
week of the embedded date.  In particular
`20240304_mydb_full_backup.sql` (a Monday) keys to
`2024/10/20240304_mydb_full_backup.sql`. -/
theorem C9_key_derivation :
    (∀ (f : String) (y m d : Nat),
        goContains f "full_backup" = true →
        parseDate8 ((splitUnderscore f).headD "") = some (y, m, d) →
        getS3Key f = Except.ok (natToString (isoYearWeek (dayNumber y m d)).1
          ++ "/" ++ pad2 (isoYearWeek (dayNumber y m d)).2 ++ "/" ++ f)) ∧
    (∀ (f : String) (y m d : Nat),
        goContains f "full_backup" = false →
        goContains f "incr_backup" = true →
        5 ≤ (splitUnderscore f).length →
        parseDate8 ((splitUnderscore f).getD ((splitUnderscore f).length - 2) "")
          = some (y, m, d) →
        getS3Key f = Except.ok (natToString (isoYearWeek (dayNumber y m d)).1
            ++ "/" ++ pad2 (isoYearWeek (dayNumber y m d)).2 ++ "/"
            ++ weekdayName (goWeekday (dayNumber y m d)) ++ "/" ++ f) ∧
        getStreamS3Key f
          = Except.ok (natToString (isoYearWeek (dayNumber y m d)).1
            ++ "/" ++ pad2 (isoYearWeek (dayNumber y m d)).2 ++ "/"
            ++ "weekly-binlog.log")) ∧
    getS3Key "20240304_mydb_full_backup.sql"
      = Except.ok "2024/10/20240304_mydb_full_backup.sql" ∧
    goWeekday (dayNumber 2024 3 4) = 1 ∧ weekdayName 1 = "Monday" := by
  refine ⟨?_, ?_, by rfl, by decide, rfl⟩
  · intro f y m d h1 h2
    simp only [getS3Key]
    rw [if_pos h1, h2]
  · intro f y m d h1 h2 h3 h4
    have h1' : ¬ (goContains f "full_backup" = true) := by simp [h1]
    have h3' : ¬ ((splitUnderscore f).length < 5) := not_lt.mpr h3
    constructor
    · simp only [getS3Key]
      rw [if_neg h1', if_pos h2, if_neg h3', h4]
    · simp only [getStreamS3Key]
      rw [if_pos h2, if_neg h3', h4]

/-- C9 (witness): the structural parts of the key-derivation theorem
applied at the concrete full-backup and incremental names. -/
theorem C9_key_witness :
    getS3Key "20240304_mydb_full_backup.sql"
      = Except.ok (natToString (isoYearWeek (dayNumber 2024 3 4)).1 ++ "/"
        ++ pad2 (isoYearWeek (dayNumber 2024 3 4)).2 ++ "/"
        ++ "20240304_mydb_full_backup.sql") ∧
    getS3Key "incr_backup_binlog.000001_0_20240304_150405.log"
      = Except.ok (natToString (isoYearWeek (dayNumber 2024 3 4)).1 ++ "/"
        ++ pad2 (isoYearWeek (dayNumber 2024 3 4)).2 ++ "/"
        ++ weekdayName (goWeekday (dayNumber 2024 3 4)) ++ "/"
        ++ "incr_backup_binlog.000001_0_20240304_150405.log") ∧
    getStreamS3Key "incr_backup_binlog.000001_0_20240304_150405.log"
      = Except.ok (natToString (isoYearWeek (dayNumber 2024 3 4)).1 ++ "/"
        ++ pad2 (isoYearWeek (dayNumber 2024 3 4)).2 ++ "/"
        ++ "weekly-binlog.log") :=
  ⟨C9_key_derivation.1 "20240304_mydb_full_backup.sql" 2024 3 4 (by decide) (by decide),
   (C9_key_derivation.2.1 "incr_backup_binlog.000001_0_20240304_150405.log"
      2024 3 4 (by decide) (by decide) (by decide) (by decide)).1,
   (C9_key_derivation.2.1 "incr_backup_binlog.000001_0_20240304_150405.log"
      2024 3 4 (by decide) (by decide) (by decide) (by decide)).2⟩

/-! ## Backup scheduler (schedule.go:31-44 / part_003:52-64) -/

/-- A wall-clock instant in the scheduler's (fixed) location. -/
structure GoTime where
  year : Nat
  month : Nat
  day : Nat
  hour : Nat
  minute : Nat
  second : Nat
  deriving Repr, DecidableEq

def secondsOfDay (t : GoTime) : Nat :=
  t.hour * 3600 + t.minute * 60 + t.second

/-- `time.Time.After`: strictly later on the timeline. -/
def timeAfter (a b : GoTime) : Bool :=
  let na := dayNumber a.year a.month a.day
  let nb := dayNumber b.year b.month b.day
  Nat.blt nb na || (na == nb && Nat.blt (secondsOfDay b) (secondsOfDay a))

def goTimeWeekday (t : GoTime) : Nat :=
  goWeekday (dayNumber t.year t.month t.day)

/-- `AddDate(0, 0, n)`: add `n` days and renormalise the civil date. -/
def addDateDays (t : GoTime) (n : Nat) : GoTime :=
  let c := fromDayNumber (dayNumber t.year t.month t.day + n)
  { t with year := c.1, month := c.2.1, day := c.2.2 }

/-- The first fire time `scheduleBackup` computes (schedule.go:31-41):
`nextBackup` starts as today at `hour:minute:00`; if that is in the past
or today is not the spec weekday, add
`(int(weekday) - int(now.Weekday()) + 7) % 7` days — forced to `7`
whenever that is `0` or `now` is past today's `nextBackup` — via
`AddDate`.  (Both weekday numbers lie in `0..6`, so Go's `Int`
expression equals `(weekday + 7 - nowWeekday) % 7` over `Nat`.) -/
def scheduleBackupNextTime (now : GoTime) (weekday hourH hourM : Nat) :
    GoTime :=
  let nextBackup : GoTime :=
    { now with hour := hourH, minute := hourM, second := 0 }
  if timeAfter now nextBackup || !(goTimeWeekday now == weekday) then
    let daysToAdd := (weekday + 7 - goTimeWeekday now) % 7
    let daysToAdd :=
      if daysToAdd == 0 || timeAfter now nextBackup then 7 else daysToAdd
    addDateDays nextBackup daysToAdd
  else nextBackup

/-- C2 (evaluation at the failing input): with the current time Wednesday
2024-03-06 10:00 and `ScheduleSpec{weekday: Monday, timeOfDay: "09:00"}`,
the code schedules 2024-03-13 09:00 — the following *Wednesday*, not the
spec weekday — even though Monday 2024-03-11 09:00 is a strictly-future
occurrence of the spec weekday that lies earlier.  The two same-weekday
examples of the spec do hold (fire times 2024-03-11 09:00 and 2024-03-04
09:00), so the inner `|| now.After(nextBackup)` clause is the slip: it
forces a 7-day jump from today whenever today's time-of-day has passed,
regardless of the weekday distance. -/
theorem C2_scheduler_bug :
    scheduleBackupNextTime ⟨2024, 3, 6, 10, 0, 0⟩ 1 9 0 = ⟨2024, 3, 13, 9, 0, 0⟩ ∧
    goTimeWeekday ⟨2024, 3, 6, 10, 0, 0⟩ = 3 ∧
    goTimeWeekday ⟨2024, 3, 13, 9, 0, 0⟩ = 3 ∧
    goTimeWeekday ⟨2024, 3, 11, 9, 0, 0⟩ = 1 ∧
    timeAfter ⟨2024, 3, 11, 9, 0, 0⟩ ⟨2024, 3, 6, 10, 0, 0⟩ = true ∧
    timeAfter ⟨2024, 3, 13, 9, 0, 0⟩ ⟨2024, 3, 11, 9, 0, 0⟩ = true ∧
    scheduleBackupNextTime ⟨2024, 3, 4, 10, 0, 0⟩ 1 9 0 = ⟨2024, 3, 11, 9, 0, 0⟩ ∧
    goTimeWeekday ⟨2024, 3, 4, 10, 0, 0⟩ = 1 ∧
    scheduleBackupNextTime ⟨2024, 3, 4, 8, 0, 0⟩ 1 9 0 = ⟨2024, 3, 4, 9, 0, 0⟩ := by
  decide

/-! ## Rotated-segment upload (incremental_backup.go:104-115)

`rotateFile` closes the segment, snapshots `rotatedFileName :=
currentFile.Name()` (still the closed segment's path at that point), and
spawns `go func(fileName string) { data, err :=
os.ReadFile(currentFile.Name()); …; UploadBufferToS3(data,
filepath.Base(fileName)) }(rotatedFileName)`.  The upload key comes from
the `fileName` parameter (the closed segment), but the bytes are read
from `currentFile.Name()` — the *global* handle, which `rotateFile`
reassigns to the freshly opened segment right after spawning.  The
goroutine races with that reassignment; `afterReassign` selects which
side of the race it observes (after, in the ordinary interleaving where
the goroutine is scheduled once `rotateFile` has returned). -/

/-- `filepath.Base` for slash-separated paths: empty gives `"."`,
trailing slashes are dropped, all-slashes gives `"/"`, otherwise the part
after the final slash. -/
def filepathBase (s : String) : String :=
  if s.data.isEmpty then "." else
  let r := s.data.reverse.dropWhile fun c => c == '/'
  if r.isEmpty then "/" else ⟨(r.takeWhile fun c => !(c == '/')).reverse⟩

/-- One upload handed to the Upload Coordinator: the S3 object key source
and the bytes. -/
structure RotateUpload where
  key : String
  data : List Nat
  deriving Repr, DecidableEq

/-- The upload performed by the goroutine `rotateFile` spawns.  `fs` maps
a path to the bytes `os.ReadFile` returns for it at goroutine run time;
`rotatedFileName` is the closed segment's path, `newFileName` the path
the global `currentFile` points to once reopened. -/
def rotateUpload (fs : String → List Nat)
    (rotatedFileName newFileName : String) (afterReassign : Bool) :
    RotateUpload :=
  { key := filepathBase rotatedFileName
    data := fs (if afterReassign then newFileName else rotatedFileName) }

/-- C7 (evaluation at the failing input): rotating a segment holding
bytes `[1, 2, 3]` while the goroutine runs after the new segment is
opened (the ordinary interleaving) uploads the *new* segment's content —
empty — under the closed segment's base name, not the closed segment's
bytes; only in the raced-before interleaving would the closed bytes be
read.  The key, unlike the data, does come from the closed segment. -/
theorem C7_upload_reads_new_file :
    (rotateUpload
        (fun s => if s = "dir/incr_backup_binlog.000001_0_20240101_000000.log"
                  then [1, 2, 3] else [])
        "dir/incr_backup_binlog.000001_0_20240101_000000.log"
        "dir/incr_backup_binlog.000001_1_20240101_000100.log" true).key
      = "incr_backup_binlog.000001_0_20240101_000000.log" ∧
    (rotateUpload
        (fun s => if s = "dir/incr_backup_binlog.000001_0_20240101_000000.log"
                  then [1, 2, 3] else [])
        "dir/incr_backup_binlog.000001_0_20240101_000000.log"
        "dir/incr_backup_binlog.000001_1_20240101_000100.log" true).data
      = [] ∧
    (rotateUpload
        (fun s => if s = "dir/incr_backup_binlog.000001_0_20240101_000000.log"
                  then [1, 2, 3] else [])
        "dir/incr_backup_binlog.000001_0_20240101_000000.log"
        "dir/incr_backup_binlog.000001_1_20240101_000100.log" false).data
      = [1, 2, 3] ∧
    ([] : List Nat) ≠ [1, 2, 3] := by
  refine ⟨by decide, by decide, by decide, by decide⟩

/-! ## Full backup driver (`MysqlBackup`, full_backup source lines
24-61 and 94-114) -/

/-- The environment of external outcomes `MysqlBackup` runs against:
whether each database exists, the per-database `mysqldump` and S3-upload
errors, and the outcome of the all-databases dump/upload. -/
structure BackupEnv where
  dbExists : String → Bool
  dumpError : String → Option String
  uploadError : String → Option String
  allDumpError : Option String
  allUploadError : Option String

/-- `singleDbBackup` (lines 94-114): error when the database does not
exist, when `mysqldump` fails, or when the upload fails; `ok`
otherwise. -/
def singleDbBackup (env : BackupEnv) (database : String) :
    Except String Unit :=
  if !(env.dbExists database) then
    Except.error ("database " ++ database ++ " does not exist")
  else
    match env.dumpError database with
    | some e => Except.error e
    | none =>
        match env.uploadError database with
        | some e => Except.error ("failed to upload backup to S3: " ++ e)
        | none => Except.ok ()

/-- The log line emitted when one database's backup fails
(`"Failed to backup database %s: %v"`, abstracted to the database
name). -/
def failLogMsg (database : String) : String :=
  "Failed to backup database " ++ database

/-- The `for _, database := range databases` loop of `MysqlBackup`: each
failing database produces a log line and the loop moves on. -/
def backupDatabasesLoop (env : BackupEnv) : List String → List String
  | [] => []
  | db :: rest =>
      (match singleDbBackup env db with
       | Except.error _ => [failLogMsg db]
       | Except.ok _ => []) ++ backupDatabasesLoop env rest

/-- `MysqlBackup` (lines 24-61), returning its failure log lines and its
result.  `databases : Option (List String)` models the Go slice's
nil/non-nil distinction.  In the all-databases branch the dump and
upload errors are propagated; in the list branch every per-database
error is only logged; a single named database is likewise only logged;
with neither, an error is returned. -/
def MysqlBackup (env : BackupEnv) (allDBFull : Bool) (database : String)
    (databases : Option (List String)) :
    List String × Except String Unit :=
  if allDBFull then
    match env.allDumpError with
    | some e => ([], Except.error ("failed to backup all databases: " ++ e))
    | none =>
        match env.allUploadError with
        | some e => ([], Except.error ("failed to upload backup to S3: " ++ e))
        | none => ([], Except.ok ())
  else
    match databases with
    | some dbs => (backupDatabasesLoop env dbs, Except.ok ())
    | none =>
        if database != "" then
          ((match singleDbBackup env database with
            | Except.error _ => [failLogMsg database]
            | Except.ok _ => []), Except.ok ())
        else ([], Except.error "no database specified for backup")

theorem backupDatabasesLoop_eq_filterMap (env : BackupEnv)
    (dbs : List String) :
    backupDatabasesLoop env dbs
      = dbs.filterMap fun db =>
          match singleDbBackup env db with
          | Except.error _ => some (failLogMsg db)
          | Except.ok _ => none := by
  induction dbs with
  | nil => rfl
  | cons db rest ih =>
      simp only [backupDatabasesLoop, ih, List.filterMap_cons]
      cases singleDbBackup env db <;> simp

/-- C10: for any outcome environment and any non-empty database list,
`MysqlBackup(dbConn, false, "", databases, dir)` returns `nil` — even
when some or all per-database backups fail — and its log contains exactly
one failure line per failing database, in list order: every failure is
only logged and the loop proceeds through the whole list, so the caller
never observes a per-database error in the return value. -/
theorem C10_continue_on_error (env : BackupEnv) (dbs : List String)
    (_hne : dbs ≠ []) :
    (MysqlBackup env false "" (some dbs)).2 = Except.ok () ∧
    (MysqlBackup env false "" (some dbs)).1
      = dbs.filterMap fun db =>
          match singleDbBackup env db with
          | Except.error _ => some (failLogMsg db)
          | Except.ok _ => none := by
  exact ⟨rfl, backupDatabasesLoop_eq_filterMap env dbs⟩

/-- The concrete environment of the C10 witness: only the database
`"good"` exists; dumps and uploads succeed. -/
def c10Env : BackupEnv :=
  { dbExists := fun db => db == "good"
    dumpError := fun _ => none
    uploadError := fun _ => none
    allDumpError := none
    allUploadError := none }

/-- C10 (witness): the continue-on-error theorem at a concrete
environment and list — two of three databases fail, the result is still
`ok`, and both failures are logged in order. -/
theorem C10_witness :
    (MysqlBackup c10Env false "" (some ["bad1", "good", "bad2"])).2
        = Except.ok () ∧
    (MysqlBackup c10Env false "" (some ["bad1", "good", "bad2"])).1
        = ["Failed to backup database bad1", "Failed to backup database bad2"] := by
  have h := C10_continue_on_error c10Env ["bad1", "good", "bad2"] (by decide)
  exact ⟨h.1, by rw [h.2]; decide⟩

end Mbrgo
